import Mathlib

/-!
Verification of the nsqd Topic pipeline (src/nsqd/topic.go).

The Topic owns a bounded in-memory message buffer, a durable backend queue,
a small ingest buffer, a registry of channels and two loops: the Router
(moves each ingested message to memory or, when memory is full, to the
backend) and the MessagePump (drains memory and backend and fans each
message out to every registered channel).

The Go loops are embedded as step functions on an explicit Topic state.
Go channels become lists (head = next element to be received); the
nondeterminism of a Go select between two ready sources is exposed as a
choice of which step function runs.  External collaborators whose code is
not in the repository snapshot (nsq.Message encode and decode, the disk
queue, the Channel, the notify bus) are modelled at their interface,
following the specification document.
-/

/-- Modelled from the spec: nsq.Message is an envelope of id, body and
timestamp (the message code is not part of the snapshot; the spec describes
the fields and that the timestamp is assigned at creation).  Bytes are
numbers, the int64 timestamp is a natural number (nanoseconds). -/
structure Message where
  id : List Nat
  body : List Nat
  timestamp : Nat
  deriving Repr, DecidableEq

/-- Modelled from the spec: nsq.NewMessage builds a message from id and
body, assigning the creation-time timestamp. -/
def NewMessage (id body : List Nat) (now : Nat) : Message :=
  { id := id, body := body, timestamp := now }

/-- Modelled from the spec: the fixed serialization of id, body and
timestamp used at the backend-queue boundary (Message.Encode); it must
round-trip exactly. -/
def encodeMessage (m : Message) : List Nat :=
  m.id.length :: (m.id ++ m.body.length :: (m.body ++ [m.timestamp]))

/-- Modelled from the spec: nsq.DecodeMessage, the inverse of
encodeMessage; malformed records yield none. -/
def decodeMessage : List Nat → Option Message
  | [] => none
  | n :: rest =>
    if n + 1 ≤ rest.length then
      let idPart := rest.take n
      match rest.drop n with
      | [] => none
      | bn :: rest2 =>
        if rest2.length = bn + 1 then
          some { id := idPart, body := rest2.take bn,
                 timestamp := rest2.getLastD 0 }
        else none
    else none

/-- Modelled from the spec: the BackendQueue collaborator (NewDiskQueue is
not part of the snapshot).  It is an ordered sequence of byte records with
append, a receive stream in append order, and close.  Construction records
name, storage location and max bytes per file; closeCalls counts Close
invocations and closeErr is the fault-injected result Close will report. -/
structure BackendQueue where
  name : String
  dataPath : String
  maxBytesPerFile : Int
  records : List (List Nat)
  closed : Bool
  closeCalls : Nat
  closeErr : Option String
  deriving Repr, DecidableEq

/-- Modelled from the spec: NewDiskQueue, parameterized by name, storage
location and max bytes per file, starting empty and open. -/
def NewDiskQueue (name dataPath : String) (maxBytesPerFile : Int) : BackendQueue :=
  { name := name, dataPath := dataPath, maxBytesPerFile := maxBytesPerFile,
    records := [], closed := false, closeCalls := 0, closeErr := none }

/-- backend.Put appends one encoded record. -/
def BackendQueue.put (b : BackendQueue) (data : List Nat) : BackendQueue :=
  { b with records := b.records ++ [data] }

/-- backend.Close: marks the queue closed, counts the call, and reports the
fault-injected error, if any. -/
def BackendQueue.close (b : BackendQueue) : BackendQueue × Option String :=
  ({ b with closed := true, closeCalls := b.closeCalls + 1 }, b.closeErr)

/-- Modelled from the spec: the Channel collaborator (NewChannel is not part
of the snapshot).  It records its constructor arguments, the messages put to
it, and close bookkeeping: closeCalls counts Close invocations and closeErr
is the fault-injected result Close will report. -/
structure Channel where
  topicName : String
  name : String
  memQueueSize : Nat
  dataPath : String
  maxBytesPerFile : Int
  received : List Message
  closed : Bool
  closeCalls : Nat
  closeErr : Option String
  deriving Repr, DecidableEq

/-- Modelled from the spec: NewChannel records its constructor arguments and
starts with no messages, open. -/
def NewChannel (topicName chanName : String) (memQueueSize : Nat)
    (dataPath : String) (maxBytesPerFile : Int) : Channel :=
  { topicName := topicName, name := chanName, memQueueSize := memQueueSize,
    dataPath := dataPath, maxBytesPerFile := maxBytesPerFile,
    received := [], closed := false, closeCalls := 0, closeErr := none }

/-- channel.PutMessage: the channel takes ownership of the message. -/
def Channel.putMessage (c : Channel) (m : Message) : Channel :=
  { c with received := c.received ++ [m] }

/-- channel.Close: marks the channel closed, counts the call, and reports
the fault-injected error, if any. -/
def Channel.close (c : Channel) : Channel × Option String :=
  ({ c with closed := true, closeCalls := c.closeCalls + 1 }, c.closeErr)

/-- The Topic state (struct Topic in topic.go).  The Go channels
incomingMessageChan and memoryMsgChan are lists whose head is the next
message a receiver would take; memQueueSize is the memory-buffer capacity.
routerRunning and pumpRunning record whether the corresponding goroutine
loop is still iterating; routerObserving and pumpObserving record whether
its exitChan is registered at the notify bus; pumpStarted is the
sync.Once guard and pumpStartCount counts how often the pump goroutine was
actually launched. -/
structure Topic where
  name : String
  channelMap : List (String × Channel)
  backend : BackendQueue
  incomingMessageChan : List Message
  memoryMsgChan : List Message
  memQueueSize : Nat
  dataPath : String
  maxBytesPerFile : Int
  pumpStarted : Bool
  pumpStartCount : Nat
  routerRunning : Bool
  routerObserving : Bool
  pumpRunning : Bool
  pumpObserving : Bool
  deriving Repr, DecidableEq

/-- Lookup in the channel map by name. -/
def chanLookup : List (String × Channel) → String → Option Channel
  | [], _ => none
  | p :: ps, n => if p.1 = n then some p.2 else chanLookup ps n

/-- NewTopic (topic.go).  The struct literal sets name, channelMap, backend,
incomingMessageChan (capacity 5), memoryMsgChan (capacity memQueueSize),
memQueueSize and dataPath; the maxBytesPerFile field is NOT set and keeps
its zero value, while the constructor argument goes to NewDiskQueue only.
The constructor launches the Router goroutine (which registers its exitChan
with the notify bus); the pump is not started. -/
def NewTopic (topicName : String) (memQueueSize : Nat) (dataPath : String)
    (maxBytesPerFile : Int) : Topic :=
  { name := topicName, channelMap := [],
    backend := NewDiskQueue topicName dataPath maxBytesPerFile,
    incomingMessageChan := [], memoryMsgChan := [],
    memQueueSize := memQueueSize, dataPath := dataPath,
    maxBytesPerFile := 0,
    pumpStarted := false, pumpStartCount := 0,
    routerRunning := true, routerObserving := true,
    pumpRunning := false, pumpObserving := false }

/-- The body of messagePumpStarter.Do in GetChannel: launch the MessagePump
goroutine on the first call only (sync.Once). -/
def startPumpOnce (t : Topic) : Topic :=
  if t.pumpStarted then t
  else { t with pumpStarted := true, pumpStartCount := t.pumpStartCount + 1,
                pumpRunning := true, pumpObserving := true }

/-- Topic.GetChannel (topic.go): under the lock, return the existing channel
or create one via NewChannel (note: passing the zero-valued
t.maxBytesPerFile), then run the sync.Once pump starter. -/
def Topic.GetChannel (t : Topic) (channelName : String) : Channel × Topic :=
  match chanLookup t.channelMap channelName with
  | some c => (c, startPumpOnce t)
  | none =>
    let c := NewChannel t.name channelName t.memQueueSize t.dataPath
               t.maxBytesPerFile
    (c, startPumpOnce { t with channelMap := (channelName, c) :: t.channelMap })

/-- Topic.PutMessage (topic.go): enqueue on the ingest buffer.  (The Go
send blocks when the buffer holds 5 messages; the completed send is
modelled.) -/
def Topic.PutMessage (t : Topic) (m : Message) : Topic :=
  { t with incomingMessageChan := t.incomingMessageChan ++ [m] }

/-- One iteration of the Router loop body (topic.go) in which the select
took a message from the ingest buffer: try a non-blocking send to the
memory buffer; on default (memory full) encode and backend.Put.  An encode
failure drops the message and continues; a backend.Put failure (injected
via putFails) drops the message and continues.  A no-op when the loop has
exited or the ingest buffer is empty. -/
def routerStep (enc : Message → Option (List Nat)) (putFails : Bool)
    (t : Topic) : Topic :=
  if t.routerRunning then
    match t.incomingMessageChan with
    | [] => t
    | m :: rest =>
      if t.memoryMsgChan.length < t.memQueueSize then
        { t with incomingMessageChan := rest,
                 memoryMsgChan := t.memoryMsgChan ++ [m] }
      else
        match enc m with
        | none => { t with incomingMessageChan := rest }
        | some data =>
          if putFails then { t with incomingMessageChan := rest }
          else { t with incomingMessageChan := rest,
                        backend := t.backend.put data }
  else t

/-- The Router loop taking the topic_close signal: notify.Ignore the
exitChan and return.  (A loop that already exited has both flags false, so
the unconditional update is the same state.) -/
def routerExit (t : Topic) : Topic :=
  { t with routerRunning := false, routerObserving := false }

/-- The fan-out body of the MessagePump (topic.go): under the read lock,
for every registered channel build a fresh copy via nsq.NewMessage with the
same id and body, overwrite its timestamp with the original timestamp, and
hand it to the channel. -/
def fanOut (m : Message) (cm : List (String × Channel)) :
    List (String × Channel) :=
  cm.map (fun p =>
    (p.1, p.2.putMessage { NewMessage m.id m.body 0 with timestamp := m.timestamp }))

/-- One iteration of the MessagePump loop body (topic.go) in which the
select took a message from the memory buffer: fan it out to every channel.
A no-op when the loop is not running or the buffer is empty. -/
def pumpStepMem (t : Topic) : Topic :=
  if t.pumpRunning then
    match t.memoryMsgChan with
    | [] => t
    | m :: rest =>
      { t with memoryMsgChan := rest, channelMap := fanOut m t.channelMap }
  else t

/-- One iteration of the MessagePump loop body (topic.go) in which the
select took a record from the backend receive stream: decode it; on decode
failure log, skip the record and continue; otherwise fan the message out.
A no-op when the loop is not running or the stream is empty. -/
def pumpStepDisk (dec : List Nat → Option Message) (t : Topic) : Topic :=
  if t.pumpRunning then
    match t.backend.records with
    | [] => t
    | r :: rest =>
      let t1 := { t with backend := { t.backend with records := rest } }
      match dec r with
      | none => t1
      | some m => { t1 with channelMap := fanOut m t1.channelMap }
  else t

/-- The MessagePump loop taking the topic_close signal: notify.Ignore the
exitChan and return.  (A pump that never started or already exited has both
flags false, so the unconditional update is the same state.) -/
def pumpExit (t : Topic) : Topic :=
  { t with pumpRunning := false, pumpObserving := false }

/-- Topic.Close (topic.go): notify.Post the topic_close event — the
exitChan sends are unbuffered, so each observing loop takes the signal,
unregisters and exits before Post returns — then call Close on every
registered channel, continuing past individual channel errors, then close
the backend queue; only the backend close error is returned. -/
def Topic.Close (t : Topic) : Topic × Option String :=
  let t1 := routerExit t
  let t2 := pumpExit t1
  let cm := t2.channelMap.map (fun p => (p.1, (Channel.close p.2).1))
  let bc := BackendQueue.close t2.backend
  ({ t2 with channelMap := cm, backend := bc.1 }, bc.2)

/-- A scheduling choice: which event runs next.  put is a producer call,
router and routerExitStep are the selects of the Router loop, pumpMem,
pumpDisk and pumpExitStep those of the MessagePump, getChan a subscriber
call and closeStep a Topic.Close call. -/
inductive Step where
  | put (m : Message)
  | router (putFails : Bool)
  | routerExitStep
  | pumpMem
  | pumpDisk
  | pumpExitStep
  | getChan (n : String)
  | closeStep
  deriving Repr, DecidableEq

/-- Apply one scheduled event to the topic state. -/
def applyStep (enc : Message → Option (List Nat))
    (dec : List Nat → Option Message) : Step → Topic → Topic
  | Step.put m, t => t.PutMessage m
  | Step.router pf, t => routerStep enc pf t
  | Step.routerExitStep, t => routerExit t
  | Step.pumpMem, t => pumpStepMem t
  | Step.pumpDisk, t => pumpStepDisk dec t
  | Step.pumpExitStep, t => pumpExit t
  | Step.getChan n, t => (t.GetChannel n).2
  | Step.closeStep, t => (t.Close).1

/-- Run a schedule: apply its events in order. -/
def run (enc : Message → Option (List Nat))
    (dec : List Nat → Option Message) : List Step → Topic → Topic
  | [], t => t
  | s :: ss, t => run enc dec ss (applyStep enc dec s t)

/-- Iterate the Router loop body a given number of times (no failures
injected). -/
def routerDrain (enc : Message → Option (List Nat)) : Nat → Topic → Topic
  | 0, t => t
  | k + 1, t => routerDrain enc k (routerStep enc false t)

/-- The failure-free encoder used by the Router in normal operation. -/
def encOk (m : Message) : Option (List Nat) :=
  some (encodeMessage m)

/-- Concrete message m1 of the overflow scenario (spec section 8). -/
def msg1 : Message := { id := [1], body := [21], timestamp := 101 }

/-- Concrete message m2 of the overflow scenario. -/
def msg2 : Message := { id := [2], body := [22], timestamp := 102 }

/-- Concrete message m3 of the overflow scenario. -/
def msg3 : Message := { id := [3], body := [23], timestamp := 103 }

/-- Concrete message m4 of the overflow scenario. -/
def msg4 : Message := { id := [4], body := [24], timestamp := 104 }

/-- The scenario topic after ingesting m1..m4 with memory capacity 2 and no
subscriber: the Router has routed all four. -/
def scenarioIngested : Topic :=
  routerDrain encOk 4
    (((((NewTopic "orders" 2 "data" 1024).PutMessage msg1).PutMessage
        msg2).PutMessage msg3).PutMessage msg4)

/-- The scenario topic right after channel c1 subscribes (pump started). -/
def scenarioSubscribed : Topic :=
  (scenarioIngested.GetChannel "c1").2

/-- The scenario channel c1 after a disk-first pump schedule delivered
m3, m4 before m1, m2. -/
def c1DiskFirst : Channel :=
  { topicName := "orders", name := "c1", memQueueSize := 2,
    dataPath := "data", maxBytesPerFile := 0,
    received := [msg3, msg4, msg1, msg2], closed := false, closeCalls := 0,
    closeErr := none }

/-- The scenario channel c1 after a memory-first pump schedule delivered
m1, m2, m3, m4 in arrival order. -/
def c1MemFirst : Channel :=
  { topicName := "orders", name := "c1", memQueueSize := 2,
    dataPath := "data", maxBytesPerFile := 0,
    received := [msg1, msg2, msg3, msg4], closed := false, closeCalls := 0,
    closeErr := none }

/-!
Byte-level refinement of the per-channel copy, for the copy-isolation
property.  Go slices are references into a heap of byte arrays; a message
holds references to its id and body bytes, while the timestamp lives in the
struct itself.
-/

/-- A heap of byte arrays, addressed by position. -/
abbrev Heap := List (List Nat)

/-- A message as the runtime sees it: references into the heap for the id
and body bytes, the timestamp stored in the struct. -/
structure MsgRef where
  idRef : Nat
  bodyRef : Nat
  timestamp : Nat
  deriving Repr, DecidableEq

/-- The id bytes a holder of the message observes. -/
def readId (h : Heap) (m : MsgRef) : List Nat :=
  h.getD m.idRef []

/-- The body bytes a holder of the message observes. -/
def readBody (h : Heap) (m : MsgRef) : List Nat :=
  h.getD m.bodyRef []

/-- In-place mutation of one byte of the message body. -/
def writeBodyByte (h : Heap) (m : MsgRef) (i v : Nat) : Heap :=
  h.set m.bodyRef ((h.getD m.bodyRef []).set i v)

/-- Modelled from the spec: the per-channel copy made by the fan-out pump
(nsq.NewMessage on the original id and body, then overwriting the
timestamp), which per spec sections 3 and 4.2 is an independent copy with
the same id, body and timestamp but distinct storage: fresh heap cells are
allocated holding the same bytes. -/
def copyAlloc (h : Heap) (m : MsgRef) : Heap × MsgRef :=
  (h ++ [readId h m, readBody h m],
   { idRef := h.length, bodyRef := h.length + 1, timestamp := m.timestamp })

/-- The heap after the pump allocates the copy for the first channel. -/
def heapAfterA (h : Heap) (m : MsgRef) : Heap :=
  (copyAlloc h m).1

/-- The copy handed to the first channel. -/
def copyForA (h : Heap) (m : MsgRef) : MsgRef :=
  (copyAlloc h m).2

/-- The heap after the pump also allocates the copy for the second
channel. -/
def heapAfterB (h : Heap) (m : MsgRef) : Heap :=
  (copyAlloc (heapAfterA h m) m).1

/-- The copy handed to the second channel. -/
def copyForB (h : Heap) (m : MsgRef) : MsgRef :=
  (copyAlloc (heapAfterA h m) m).2

/-- The invariant that the Topic never stored its maxBytesPerFile
constructor argument: the field is zero and every registered channel was
built with the zero value. -/
def mbpfInv (t : Topic) : Prop :=
  t.maxBytesPerFile = 0 ∧ ∀ p ∈ t.channelMap, p.2.maxBytesPerFile = 0

/-!
Shared lemmas about the embedded operations.
-/

theorem chanLookup_mem : ∀ (cm : List (String × Channel)) (n : String)
    (c : Channel), chanLookup cm n = some c → (n, c) ∈ cm
  | [], _, _, h => by cases h
  | p :: ps, n, c, h => by
    by_cases he : p.1 = n
    · simp only [chanLookup, he, if_true, Option.some.injEq] at h
      subst h
      subst he
      exact List.mem_cons_self _ _
    · simp only [chanLookup, he, if_false] at h
      exact List.mem_cons_of_mem _ (chanLookup_mem ps n c h)

theorem chanLookup_map (f : Channel → Channel) :
    ∀ (cm : List (String × Channel)) (n : String),
      chanLookup (cm.map (fun p => (p.1, f p.2))) n
        = (chanLookup cm n).map f
  | [], _ => rfl
  | p :: ps, n => by
    by_cases h : p.1 = n
    · simp [chanLookup, h]
    · simp [chanLookup, h, chanLookup_map f ps n]

theorem startPumpOnce_channelMap (t : Topic) :
    (startPumpOnce t).channelMap = t.channelMap := by
  unfold startPumpOnce
  split <;> rfl

theorem startPumpOnce_pumpStarted (t : Topic) :
    (startPumpOnce t).pumpStarted = true := by
  unfold startPumpOnce
  split
  · assumption
  · rfl

theorem startPumpOnce_of_started (t : Topic) (h : t.pumpStarted = true) :
    startPumpOnce t = t := by
  unfold startPumpOnce
  simp [h]

theorem routerStep_frame (enc : Message → Option (List Nat)) (pf : Bool)
    (t : Topic) :
    (routerStep enc pf t).channelMap = t.channelMap ∧
    (routerStep enc pf t).maxBytesPerFile = t.maxBytesPerFile ∧
    (routerStep enc pf t).memQueueSize = t.memQueueSize ∧
    (routerStep enc pf t).pumpStarted = t.pumpStarted ∧
    (routerStep enc pf t).pumpRunning = t.pumpRunning ∧
    (routerStep enc pf t).routerRunning = t.routerRunning := by
  unfold routerStep
  split
  · split
    · exact ⟨rfl, rfl, rfl, rfl, rfl, rfl⟩
    · split
      · exact ⟨rfl, rfl, rfl, rfl, rfl, rfl⟩
      · split
        · exact ⟨rfl, rfl, rfl, rfl, rfl, rfl⟩
        · split
          · exact ⟨rfl, rfl, rfl, rfl, rfl, rfl⟩
          · exact ⟨rfl, rfl, rfl, rfl, rfl, rfl⟩
  · exact ⟨rfl, rfl, rfl, rfl, rfl, rfl⟩

theorem startPumpOnce_maxBytesPerFile (t : Topic) :
    (startPumpOnce t).maxBytesPerFile = t.maxBytesPerFile := by
  unfold startPumpOnce
  split <;> rfl

theorem fanOut_mbpf (m : Message) (cm : List (String × Channel))
    (h : ∀ p ∈ cm, p.2.maxBytesPerFile = 0) :
    ∀ p ∈ fanOut m cm, p.2.maxBytesPerFile = 0 := by
  intro p hp
  rcases List.mem_map.1 hp with ⟨q, hq, rfl⟩
  exact h q hq

theorem mbpfInv_applyStep (enc : Message → Option (List Nat))
    (dec : List Nat → Option Message) (s : Step) (t : Topic)
    (h : mbpfInv t) : mbpfInv (applyStep enc dec s t) := by
  obtain ⟨h0, hcm⟩ := h
  cases s with
  | put m => exact ⟨h0, hcm⟩
  | router pf =>
    show mbpfInv (routerStep enc pf t)
    obtain ⟨hc, hm, -⟩ := routerStep_frame enc pf t
    exact ⟨by rw [hm]; exact h0, by rw [hc]; exact hcm⟩
  | routerExitStep => exact ⟨h0, hcm⟩
  | pumpMem =>
    show mbpfInv (pumpStepMem t)
    unfold pumpStepMem
    split
    · split
      · exact ⟨h0, hcm⟩
      · exact ⟨h0, fanOut_mbpf _ _ hcm⟩
    · exact ⟨h0, hcm⟩
  | pumpDisk =>
    show mbpfInv (pumpStepDisk dec t)
    unfold pumpStepDisk
    split
    · split
      · exact ⟨h0, hcm⟩
      · split
        · exact ⟨h0, hcm⟩
        · exact ⟨h0, fanOut_mbpf _ _ hcm⟩
    · exact ⟨h0, hcm⟩
  | pumpExitStep => exact ⟨h0, hcm⟩
  | getChan n =>
    show mbpfInv (t.GetChannel n).2
    unfold Topic.GetChannel
    split
    · exact ⟨by rw [startPumpOnce_maxBytesPerFile]; exact h0,
        by rw [startPumpOnce_channelMap]; exact hcm⟩
    · refine ⟨by rw [startPumpOnce_maxBytesPerFile]; exact h0, ?_⟩
      rw [startPumpOnce_channelMap]
      intro p hp
      rcases List.mem_cons.1 hp with hp | hp
      · subst hp
        exact h0
      · exact hcm p hp
  | closeStep =>
    refine ⟨h0, ?_⟩
    intro p hp
    rcases List.mem_map.1 hp with ⟨q, hq, rfl⟩
    exact hcm q hq

/-- C1: for a message dequeued from the ingest buffer, the Router places it
in the memory buffer exactly when the memory buffer has room, and otherwise
appends its encoding to the backend queue; in each case the other
destination is untouched, so the message lands in exactly one of the two,
and memory is preferred over disk. -/
theorem C1_router_exclusive_routing (enc : Message → Option (List Nat))
    (t : Topic) (m : Message) (rest : List Message) (d : List Nat)
    (hrun : t.routerRunning = true)
    (hin : t.incomingMessageChan = m :: rest)
    (henc : enc m = some d) :
    (routerStep enc false t).incomingMessageChan = rest ∧
    ((t.memoryMsgChan.length < t.memQueueSize ∧
      (routerStep enc false t).memoryMsgChan = t.memoryMsgChan ++ [m] ∧
      (routerStep enc false t).backend = t.backend) ∨
     (¬ t.memoryMsgChan.length < t.memQueueSize ∧
      (routerStep enc false t).memoryMsgChan = t.memoryMsgChan ∧
      (routerStep enc false t).backend.records = t.backend.records ++ [d])) ∧
    ¬ ((routerStep enc false t).memoryMsgChan = t.memoryMsgChan ++ [m] ∧
       (routerStep enc false t).backend.records = t.backend.records ++ [d]) := by
  by_cases hlt : t.memoryMsgChan.length < t.memQueueSize
  · have hstep : routerStep enc false t
        = { t with incomingMessageChan := rest,
                   memoryMsgChan := t.memoryMsgChan ++ [m] } := by
      simp only [routerStep, hrun, if_true, hin, if_pos hlt]
    rw [hstep]
    refine ⟨rfl, Or.inl ⟨hlt, rfl, rfl⟩, ?_⟩
    rintro ⟨-, hrec⟩
    have hlen := congrArg List.length hrec
    simp at hlen
  · have hstep : routerStep enc false t
        = { t with incomingMessageChan := rest,
                   backend := t.backend.put d } := by
      simp only [routerStep, hrun, if_true, hin, if_neg hlt, henc,
        Bool.false_eq_true, if_false]
    rw [hstep]
    refine ⟨rfl, Or.inr ⟨hlt, rfl, rfl⟩, ?_⟩
    rintro ⟨hmem, -⟩
    have hlen := congrArg List.length hmem
    simp at hlen

/-- Witness for C1 at a concrete topic with room in memory. -/
theorem C1_router_exclusive_routing_witness :
    ((NewTopic "t" 2 "d" 0).PutMessage msg1).routerRunning = true ∧
    ((NewTopic "t" 2 "d" 0).PutMessage msg1).incomingMessageChan
      = msg1 :: [] ∧
    encOk msg1 = some (encodeMessage msg1) ∧
    (routerStep encOk false
        ((NewTopic "t" 2 "d" 0).PutMessage msg1)).memoryMsgChan
      = ((NewTopic "t" 2 "d" 0).PutMessage msg1).memoryMsgChan ++ [msg1] := by
  refine ⟨rfl, rfl, rfl, ?_⟩
  have h := C1_router_exclusive_routing encOk
    ((NewTopic "t" 2 "d" 0).PutMessage msg1) msg1 []
    (encodeMessage msg1) rfl rfl rfl
  rcases h.2.1 with hc | hc
  · exact hc.2.1
  · exact absurd (by decide) hc.1

/-- C2: when the pump obtains a message from the memory buffer, or decodes
one from a backend record, every channel registered in the channel map at
that moment receives exactly one new message, a copy whose id, body and
timestamp equal those of the original. -/
theorem C2_fanout_completeness (dec : List Nat → Option Message)
    (t u : Topic) (m : Message) (rest : List Message)
    (r : List Nat) (rs : List (List Nat))
    (ht : t.pumpRunning = true) (hmem : t.memoryMsgChan = m :: rest)
    (hu : u.pumpRunning = true) (hrec : u.backend.records = r :: rs)
    (hdec : dec r = some m) :
    ((pumpStepMem t).channelMap
       = t.channelMap.map (fun p => (p.1, p.2.putMessage
           { NewMessage m.id m.body 0 with timestamp := m.timestamp })) ∧
     (pumpStepDisk dec u).channelMap
       = u.channelMap.map (fun p => (p.1, p.2.putMessage
           { NewMessage m.id m.body 0 with timestamp := m.timestamp }))) ∧
    (∀ p ∈ t.channelMap, ∃ c : Channel,
       (p.1, c) ∈ (pumpStepMem t).channelMap ∧
       c.received = p.2.received ++
         [{ NewMessage m.id m.body 0 with timestamp := m.timestamp }]) ∧
    ({ NewMessage m.id m.body 0 with timestamp := m.timestamp } : Message).id
        = m.id ∧
    ({ NewMessage m.id m.body 0 with timestamp := m.timestamp } : Message).body
        = m.body ∧
    ({ NewMessage m.id m.body 0 with
        timestamp := m.timestamp } : Message).timestamp = m.timestamp := by
  have hmemStep : (pumpStepMem t).channelMap = fanOut m t.channelMap := by
    simp only [pumpStepMem, ht, if_true, hmem]
  have hdiskStep : (pumpStepDisk dec u).channelMap = fanOut m u.channelMap := by
    simp only [pumpStepDisk, hu, if_true, hrec, hdec]
  refine ⟨⟨hmemStep, hdiskStep⟩, ?_, rfl, rfl, rfl⟩
  intro p hp
  refine ⟨p.2.putMessage
    { NewMessage m.id m.body 0 with timestamp := m.timestamp }, ?_, rfl⟩
  rw [hmemStep]
  exact List.mem_map_of_mem (fun q => (q.1, q.2.putMessage
    { NewMessage m.id m.body 0 with timestamp := m.timestamp })) hp

/-- Witness for C2 on a concrete topic with one registered channel, one
memory-resident message, and a variant of that topic whose next backend
record decodes to the same message. -/
theorem C2_fanout_completeness_witness :
    scenarioSubscribed.pumpRunning = true ∧
    scenarioSubscribed.memoryMsgChan = msg1 :: [msg2] ∧
    ({ scenarioSubscribed with
        backend := { scenarioSubscribed.backend with
          records := [encodeMessage msg1] } } : Topic).backend.records
      = encodeMessage msg1 :: [] ∧
    decodeMessage (encodeMessage msg1) = some msg1 ∧
    (∀ p ∈ scenarioSubscribed.channelMap, ∃ c : Channel,
       (p.1, c) ∈ (pumpStepMem scenarioSubscribed).channelMap ∧
       c.received = p.2.received ++
         [{ NewMessage msg1.id msg1.body 0 with
              timestamp := msg1.timestamp }]) := by
  refine ⟨rfl, by decide, rfl, by decide, ?_⟩
  exact (C2_fanout_completeness decodeMessage scenarioSubscribed
    { scenarioSubscribed with
        backend := { scenarioSubscribed.backend with
          records := [encodeMessage msg1] } }
    msg1 [msg2] (encodeMessage msg1) []
    rfl (by decide) rfl rfl (by decide)).2.1

/-- C3: Topic.Close posts the shutdown event (both loops stop), invokes
Close on every registered channel regardless of individual channel errors,
closes the backend queue exactly once, and returns exactly the backend
close error — nil when the backend close succeeds, whatever the channel
errors were. -/
theorem C3_close_semantics (t : Topic) :
    (t.Close).1.channelMap
      = t.channelMap.map (fun p => (p.1, (Channel.close p.2).1)) ∧
    (∀ p ∈ t.channelMap, ∃ c : Channel,
       (p.1, c) ∈ (t.Close).1.channelMap ∧ c.closed = true ∧
       c.closeCalls = p.2.closeCalls + 1) ∧
    (t.Close).1.backend.closeCalls = t.backend.closeCalls + 1 ∧
    (t.Close).1.backend.closed = true ∧
    (t.Close).1.routerRunning = false ∧
    (t.Close).1.pumpRunning = false ∧
    (t.Close).2 = t.backend.closeErr := by
  refine ⟨rfl, ?_, rfl, rfl, rfl, rfl, rfl⟩
  intro p hp
  exact ⟨(Channel.close p.2).1,
    List.mem_map_of_mem (fun q => (q.1, (Channel.close q.2).1)) hp, rfl, rfl⟩

theorem startPumpOnce_pumpStartCount_of_not_started (t : Topic)
    (h : t.pumpStarted = false) :
    (startPumpOnce t).pumpStartCount = t.pumpStartCount + 1 := by
  unfold startPumpOnce
  simp [h]

theorem startPumpOnce_pumpStartCount_of_started (t : Topic)
    (h : t.pumpStarted = true) :
    (startPumpOnce t).pumpStartCount = t.pumpStartCount := by
  unfold startPumpOnce
  simp [h]

theorem getChannel_lookup_self (t : Topic) (n : String) :
    chanLookup (t.GetChannel n).2.channelMap n = some (t.GetChannel n).1 := by
  unfold Topic.GetChannel
  cases hlk : chanLookup t.channelMap n with
  | none =>
    simp only [hlk, startPumpOnce_channelMap]
    simp [chanLookup]
  | some c =>
    simp only [hlk, startPumpOnce_channelMap]

theorem getChannel_pumpStarted (t : Topic) (n : String) :
    (t.GetChannel n).2.pumpStarted = true := by
  unfold Topic.GetChannel
  cases hlk : chanLookup t.channelMap n with
  | none => simp only [hlk, startPumpOnce_pumpStarted]
  | some c => simp only [hlk, startPumpOnce_pumpStarted]

theorem getChannel_pumpStartCount_first (t : Topic) (n : String)
    (h : t.pumpStarted = false) :
    (t.GetChannel n).2.pumpStartCount = t.pumpStartCount + 1 := by
  unfold Topic.GetChannel
  cases hlk : chanLookup t.channelMap n with
  | none =>
    simp only [hlk]
    exact startPumpOnce_pumpStartCount_of_not_started
      { t with channelMap :=
          (n, NewChannel t.name n t.memQueueSize t.dataPath t.maxBytesPerFile)
            :: t.channelMap } h
  | some c =>
    simp only [hlk]
    exact startPumpOnce_pumpStartCount_of_not_started t h

theorem getChannel_found (t : Topic) (n : String) (c : Channel)
    (hlk : chanLookup t.channelMap n = some c) (hst : t.pumpStarted = true) :
    t.GetChannel n = (c, t) := by
  unfold Topic.GetChannel
  simp only [hlk]
  rw [startPumpOnce_of_started t hst]

theorem getChannel_of_started (t : Topic) (n : String)
    (h : t.pumpStarted = true) :
    (t.GetChannel n).2.pumpStarted = true ∧
    (t.GetChannel n).2.pumpStartCount = t.pumpStartCount := by
  unfold Topic.GetChannel
  cases hlk : chanLookup t.channelMap n with
  | none =>
    simp only [hlk]
    exact ⟨startPumpOnce_pumpStarted _,
      startPumpOnce_pumpStartCount_of_started
        { t with channelMap :=
            (n, NewChannel t.name n t.memQueueSize t.dataPath
              t.maxBytesPerFile) :: t.channelMap } h⟩
  | some c =>
    simp only [hlk]
    exact ⟨startPumpOnce_pumpStarted _,
      startPumpOnce_pumpStartCount_of_started t h⟩

theorem getChannel_fold_started :
    ∀ (ns : List String) (u : Topic), u.pumpStarted = true →
      (ns.foldl (fun s nm => (s.GetChannel nm).2) u).pumpStartCount
          = u.pumpStartCount ∧
      (ns.foldl (fun s nm => (s.GetChannel nm).2) u).pumpStarted = true
  | [], u, h => ⟨rfl, h⟩
  | nm :: rest, u, h => by
    obtain ⟨hs, hc⟩ := getChannel_of_started u nm h
    have ih := getChannel_fold_started rest (u.GetChannel nm).2 hs
    exact ⟨by rw [List.foldl_cons, ih.1, hc], by rw [List.foldl_cons]; exact ih.2⟩

/-- C4: GetChannel is idempotent — a second call with the same name returns
the same channel and leaves the topic state (channel map included)
unchanged — and across any nonempty sequence of GetChannel calls the pump
is started exactly once, on the first call. -/
theorem C4_getChannel_idempotent (t : Topic) (n : String)
    (h : t.pumpStarted = false) :
    ((t.GetChannel n).2.GetChannel n).1 = (t.GetChannel n).1 ∧
    ((t.GetChannel n).2.GetChannel n).2 = (t.GetChannel n).2 ∧
    (t.GetChannel n).2.pumpStartCount = t.pumpStartCount + 1 ∧
    (∀ ns : List String, ns ≠ [] →
      (ns.foldl (fun s nm => (s.GetChannel nm).2) t).pumpStartCount
        = t.pumpStartCount + 1) := by
  have hsecond : (t.GetChannel n).2.GetChannel n
      = ((t.GetChannel n).1, (t.GetChannel n).2) :=
    getChannel_found (t.GetChannel n).2 n (t.GetChannel n).1
      (getChannel_lookup_self t n) (getChannel_pumpStarted t n)
  refine ⟨by rw [hsecond], by rw [hsecond],
    getChannel_pumpStartCount_first t n h, ?_⟩
  intro ns hns
  cases ns with
  | nil => exact absurd rfl hns
  | cons nm rest =>
    rw [List.foldl_cons]
    rw [(getChannel_fold_started rest (t.GetChannel nm).2
      (getChannel_pumpStarted t nm)).1]
    exact getChannel_pumpStartCount_first t nm h

/-- Witness for C4 on a fresh topic and two subscription names. -/
theorem C4_getChannel_idempotent_witness :
    (NewTopic "t" 2 "d" 0).pumpStarted = false ∧
    ["x", "y"] ≠ ([] : List String) ∧
    (["x", "y"].foldl (fun s nm => (s.GetChannel nm).2)
        (NewTopic "t" 2 "d" 0)).pumpStartCount
      = (NewTopic "t" 2 "d" 0).pumpStartCount + 1 := by
  refine ⟨rfl, by decide, ?_⟩
  exact (C4_getChannel_idempotent (NewTopic "t" 2 "d" 0) "x" rfl).2.2.2
    ["x", "y"] (by decide)

theorem startPumpOnce_frame (t : Topic) :
    (startPumpOnce t).incomingMessageChan = t.incomingMessageChan ∧
    (startPumpOnce t).memoryMsgChan = t.memoryMsgChan ∧
    (startPumpOnce t).backend = t.backend ∧
    (startPumpOnce t).routerRunning = t.routerRunning := by
  unfold startPumpOnce
  split <;> exact ⟨rfl, rfl, rfl, rfl⟩

theorem getChannel_frame (t : Topic) (n : String) :
    (t.GetChannel n).2.incomingMessageChan = t.incomingMessageChan ∧
    (t.GetChannel n).2.memoryMsgChan = t.memoryMsgChan ∧
    (t.GetChannel n).2.backend = t.backend ∧
    (t.GetChannel n).2.routerRunning = t.routerRunning := by
  unfold Topic.GetChannel
  cases hlk : chanLookup t.channelMap n with
  | none => simp only [hlk]; exact startPumpOnce_frame _
  | some c => simp only [hlk]; exact startPumpOnce_frame _

theorem chanLookup_cons_of_none (cm : List (String × Channel))
    (n n2 : String) (x c : Channel) (hc : chanLookup cm n = some c)
    (hn : chanLookup cm n2 = none) :
    chanLookup ((n2, x) :: cm) n = some c := by
  have hne : n2 ≠ n := by
    intro he
    subst he
    rw [hc] at hn
    cases hn
  simp [chanLookup, hne, hc]

/-- After the Router has exited, no scheduled event restarts it, the ingest
buffer only ever grows (its pending messages are never consumed), and the
memory buffer and backend queue only ever shrink (nothing new is routed
into them). -/
theorem applyStep_router_dead (enc : Message → Option (List Nat))
    (dec : List Nat → Option Message) (s : Step) (t : Topic)
    (h : t.routerRunning = false) :
    (applyStep enc dec s t).routerRunning = false ∧
    t.incomingMessageChan <+: (applyStep enc dec s t).incomingMessageChan ∧
    (applyStep enc dec s t).memoryMsgChan <:+ t.memoryMsgChan ∧
    (applyStep enc dec s t).backend.records <:+ t.backend.records := by
  cases s with
  | put m =>
    exact ⟨h, ⟨[m], rfl⟩, List.suffix_rfl, List.suffix_rfl⟩
  | router pf =>
    simp only [applyStep]
    simp only [routerStep, h]
    exact ⟨h, List.prefix_rfl, List.suffix_rfl, List.suffix_rfl⟩
  | routerExitStep =>
    exact ⟨rfl, List.prefix_rfl, List.suffix_rfl, List.suffix_rfl⟩
  | pumpMem =>
    simp only [applyStep]
    unfold pumpStepMem
    split
    · split
      · exact ⟨h, List.prefix_rfl, List.suffix_rfl, List.suffix_rfl⟩
      · rename_i m rest heq
        exact ⟨h, List.prefix_rfl, by rw [heq]; exact ⟨[m], rfl⟩,
          List.suffix_rfl⟩
    · exact ⟨h, List.prefix_rfl, List.suffix_rfl, List.suffix_rfl⟩
  | pumpDisk =>
    simp only [applyStep]
    unfold pumpStepDisk
    split
    · split
      · exact ⟨h, List.prefix_rfl, List.suffix_rfl, List.suffix_rfl⟩
      · rename_i r rest heq
        split
        · exact ⟨h, List.prefix_rfl, List.suffix_rfl,
            by rw [heq]; exact ⟨[r], rfl⟩⟩
        · exact ⟨h, List.prefix_rfl, List.suffix_rfl,
            by rw [heq]; exact ⟨[r], rfl⟩⟩
    · exact ⟨h, List.prefix_rfl, List.suffix_rfl, List.suffix_rfl⟩
  | pumpExitStep =>
    exact ⟨h, List.prefix_rfl, List.suffix_rfl, List.suffix_rfl⟩
  | getChan n =>
    simp only [applyStep]
    obtain ⟨hi, hm, hb, hr⟩ := getChannel_frame t n
    exact ⟨by rw [hr]; exact h, by rw [hi], by rw [hm], by rw [hb]⟩
  | closeStep =>
    exact ⟨rfl, List.prefix_rfl, List.suffix_rfl, List.suffix_rfl⟩

theorem run_router_dead (enc : Message → Option (List Nat))
    (dec : List Nat → Option Message) :
    ∀ (steps : List Step) (t : Topic), t.routerRunning = false →
    (run enc dec steps t).routerRunning = false ∧
    t.incomingMessageChan <+: (run enc dec steps t).incomingMessageChan ∧
    (run enc dec steps t).memoryMsgChan <:+ t.memoryMsgChan ∧
    (run enc dec steps t).backend.records <:+ t.backend.records
  | [], t, h => ⟨h, List.prefix_rfl, List.suffix_rfl, List.suffix_rfl⟩
  | s :: ss, t, h => by
    obtain ⟨h1, h2, h3, h4⟩ := applyStep_router_dead enc dec s t h
    obtain ⟨g1, g2, g3, g4⟩ := run_router_dead enc dec ss (applyStep enc dec s t) h1
    exact ⟨g1, h2.trans g2, g3.trans h3, g4.trans h4⟩

/-- After the MessagePump has exited (the sync.Once guard being spent), no
scheduled event restarts it and every channel then registered keeps exactly
the messages it already had: nothing further is delivered. -/
theorem applyStep_pump_dead (enc : Message → Option (List Nat))
    (dec : List Nat → Option Message) (s : Step) (t : Topic)
    (h : t.pumpRunning = false) (hs : t.pumpStarted = true) :
    (applyStep enc dec s t).pumpRunning = false ∧
    (applyStep enc dec s t).pumpStarted = true ∧
    (∀ (n : String) (c : Channel), chanLookup t.channelMap n = some c →
      ∃ c2 : Channel, chanLookup (applyStep enc dec s t).channelMap n = some c2 ∧
        c2.received = c.received) := by
  cases s with
  | put m => exact ⟨h, hs, fun n c hc => ⟨c, hc, rfl⟩⟩
  | router pf =>
    simp only [applyStep]
    obtain ⟨hc, -, -, hps, hpr, -⟩ := routerStep_frame enc pf t
    exact ⟨by rw [hpr]; exact h, by rw [hps]; exact hs,
      fun n c hlk => ⟨c, by rw [hc]; exact hlk, rfl⟩⟩
  | routerExitStep => exact ⟨h, hs, fun n c hc => ⟨c, hc, rfl⟩⟩
  | pumpMem =>
    simp only [applyStep]
    simp only [pumpStepMem, h]
    exact ⟨h, hs, fun n c hc => ⟨c, hc, rfl⟩⟩
  | pumpDisk =>
    simp only [applyStep]
    simp only [pumpStepDisk, h]
    exact ⟨h, hs, fun n c hc => ⟨c, hc, rfl⟩⟩
  | pumpExitStep => exact ⟨rfl, hs, fun n c hc => ⟨c, hc, rfl⟩⟩
  | getChan n2 =>
    simp only [applyStep]
    unfold Topic.GetChannel
    cases hlk : chanLookup t.channelMap n2 with
    | none =>
      simp only [hlk]
      rw [startPumpOnce_of_started
        { t with channelMap :=
            (n2, NewChannel t.name n2 t.memQueueSize t.dataPath
              t.maxBytesPerFile) :: t.channelMap } hs]
      refine ⟨h, hs, fun n c hc => ⟨c, ?_, rfl⟩⟩
      exact chanLookup_cons_of_none t.channelMap n n2 _ c hc hlk
    | some c0 =>
      simp only [hlk]
      rw [startPumpOnce_of_started t hs]
      exact ⟨h, hs, fun n c hc => ⟨c, hc, rfl⟩⟩
  | closeStep =>
    refine ⟨rfl, hs, fun n c hc => ⟨(Channel.close c).1, ?_, rfl⟩⟩
    show chanLookup (List.map (fun p => (p.1, (Channel.close p.2).1))
      t.channelMap) n = _
    rw [chanLookup_map (fun q => (Channel.close q).1) t.channelMap n, hc]
    rfl

theorem run_pump_dead (enc : Message → Option (List Nat))
    (dec : List Nat → Option Message) :
    ∀ (steps : List Step) (t : Topic), t.pumpRunning = false →
    t.pumpStarted = true →
    (run enc dec steps t).pumpRunning = false ∧
    (∀ (n : String) (c : Channel), chanLookup t.channelMap n = some c →
      ∃ c2 : Channel, chanLookup (run enc dec steps t).channelMap n = some c2 ∧
        c2.received = c.received)
  | [], t, h, _ => ⟨h, fun n c hc => ⟨c, hc, rfl⟩⟩
  | s :: ss, t, h, hs => by
    obtain ⟨h1, h2, h3⟩ := applyStep_pump_dead enc dec s t h hs
    obtain ⟨g1, g2⟩ := run_pump_dead enc dec ss (applyStep enc dec s t) h1 h2
    refine ⟨g1, fun n c hc => ?_⟩
    obtain ⟨c2, hc2, he2⟩ := h3 n c hc
    obtain ⟨c3, hc3, he3⟩ := g2 n c2 hc2
    exact ⟨c3, hc3, by rw [he3, he2]⟩

/-- Draining the whole ingest buffer through the Router: the free memory
capacity k is filled with the first k messages, in order, and every
remaining message is appended to the backend queue, in order. -/
theorem routerDrain_general :
    ∀ (ms : List Message) (t : Topic) (k : Nat),
      t.routerRunning = true → t.incomingMessageChan = ms →
      k = t.memQueueSize - t.memoryMsgChan.length →
      (routerDrain encOk ms.length t).incomingMessageChan = [] ∧
      (routerDrain encOk ms.length t).memoryMsgChan
        = t.memoryMsgChan ++ ms.take k ∧
      (routerDrain encOk ms.length t).backend.records
        = t.backend.records ++ (ms.drop k).map encodeMessage
  | [], t, k, hrun, hin, hk => by
    refine ⟨hin, ?_, ?_⟩ <;> simp [routerDrain]
  | m :: rest, t, k, hrun, hin, hk => by
    have hunfold : routerDrain encOk (m :: rest).length t
        = routerDrain encOk rest.length (routerStep encOk false t) := rfl
    by_cases hlt : t.memoryMsgChan.length < t.memQueueSize
    · obtain ⟨j, rfl⟩ : ∃ j, k = j + 1 := ⟨k - 1, by omega⟩
      have hstep : routerStep encOk false t
          = { t with incomingMessageChan := rest,
                     memoryMsgChan := t.memoryMsgChan ++ [m] } := by
        simp only [routerStep, hrun, if_true, hin, if_pos hlt]
      have hj : j = t.memQueueSize - (t.memoryMsgChan ++ [m]).length := by
        simp only [List.length_append, List.length_cons, List.length_nil]
        omega
      have ih := routerDrain_general rest
        { t with incomingMessageChan := rest,
                 memoryMsgChan := t.memoryMsgChan ++ [m] } j hrun rfl hj
      rw [hunfold, hstep]
      refine ⟨ih.1, ?_, ?_⟩
      · rw [ih.2.1, List.take_succ_cons, List.append_assoc]
        rfl
      · rw [ih.2.2, List.drop_succ_cons]
    · have hk0 : k = 0 := by omega
      subst hk0
      have hstep : routerStep encOk false t
          = { t with incomingMessageChan := rest,
                     backend := t.backend.put (encodeMessage m) } := by
        simp only [routerStep, hrun, if_true, hin, if_neg hlt, encOk,
          Bool.false_eq_true, if_false]
      have hj : 0 = t.memQueueSize - t.memoryMsgChan.length := by omega
      have ih := routerDrain_general rest
        { t with incomingMessageChan := rest,
                 backend := t.backend.put (encodeMessage m) } 0 hrun rfl hj
      rw [hunfold, hstep]
      refine ⟨ih.1, ?_, ?_⟩
      · rw [ih.2.1]
        simp
      · rw [ih.2.2]
        show (t.backend.put (encodeMessage m)).records
            ++ (rest.drop 0).map encodeMessage = _
        simp [BackendQueue.put]

/-- Counterexample to C5 as stated: in the overflow scenario (capacity 2,
m1..m4 ingested, then c1 subscribed) there is an execution of the pump —
the select reading the ready backend stream before the ready memory
buffer — in which c1 receives m3, m4 before m1, m2, so the memory-resident
messages are NOT always delivered first. -/
theorem C5_overflow_order_counterexample :
    (∃ c : Channel,
       chanLookup (run encOk decodeMessage
           [Step.pumpDisk, Step.pumpDisk, Step.pumpMem, Step.pumpMem]
           scenarioSubscribed).channelMap "c1" = some c ∧
       c.received = [msg3, msg4, msg1, msg2]) ∧
    [msg3, msg4, msg1, msg2] ≠ [msg1, msg2, msg3, msg4] := by
  refine ⟨⟨c1DiskFirst, by decide, rfl⟩, by decide⟩

/-- C5 (amended): with memory capacity N, empty memory and the pump not
running, draining the ingest buffer puts the first N messages in the memory
buffer and appends every subsequent message to the backend queue in arrival
order; each source is then drained in its original order, but the
interleaving between the two sources depends on which ready source the
pump selects — under the memory-first schedule the scenario channel
receives m1, m2, m3, m4 in arrival order. -/
theorem C5_overflow_order_amended (ms : List Message) (t : Topic)
    (hrun : t.routerRunning = true) (hin : t.incomingMessageChan = ms)
    (hmem : t.memoryMsgChan = []) :
    ((routerDrain encOk ms.length t).memoryMsgChan
        = ms.take t.memQueueSize ∧
     (routerDrain encOk ms.length t).backend.records
        = t.backend.records ++ (ms.drop t.memQueueSize).map encodeMessage) ∧
    (∃ c : Channel,
       chanLookup (run encOk decodeMessage
           [Step.pumpMem, Step.pumpMem, Step.pumpDisk, Step.pumpDisk]
           scenarioSubscribed).channelMap "c1" = some c ∧
       c.received = [msg1, msg2, msg3, msg4]) := by
  have hk : t.memQueueSize = t.memQueueSize - t.memoryMsgChan.length := by
    rw [hmem]
    simp
  have h := routerDrain_general ms t t.memQueueSize hrun hin hk
  refine ⟨⟨?_, h.2.2⟩, ?_⟩
  · rw [h.2.1, hmem]
    rfl
  · exact ⟨c1MemFirst, by decide, rfl⟩

/-- Witness for the amended C5 on a capacity-1 topic ingesting two
messages. -/
theorem C5_overflow_order_amended_witness :
    (((NewTopic "w" 1 "d" 5).PutMessage msg1).PutMessage
        msg2).routerRunning = true ∧
    (((NewTopic "w" 1 "d" 5).PutMessage msg1).PutMessage
        msg2).incomingMessageChan = [msg1, msg2] ∧
    (((NewTopic "w" 1 "d" 5).PutMessage msg1).PutMessage
        msg2).memoryMsgChan = [] ∧
    (routerDrain encOk 2 (((NewTopic "w" 1 "d" 5).PutMessage
        msg1).PutMessage msg2)).memoryMsgChan = [msg1] := by
  refine ⟨rfl, rfl, rfl, ?_⟩
  have h := C5_overflow_order_amended [msg1, msg2]
    (((NewTopic "w" 1 "d" 5).PutMessage msg1).PutMessage msg2) rfl rfl rfl
  exact h.1.1.trans (by decide)

/-- C8: on taking the topic_close signal a loop unregisters its receiver
and returns at once, draining nothing.  For the Router: the exit changes no
buffer, and afterwards — whatever events are scheduled — the router never
runs again, so the messages sitting in the ingest buffer stay there (the
old buffer is a prefix of every later one) and are never routed.  For the
MessagePump: the exit unregisters, and afterwards every registered channel
keeps exactly the messages it already had. -/
theorem C8_shutdown_no_drain (enc : Message → Option (List Nat))
    (dec : List Nat → Option Message) (steps : List Step) (t u : Topic)
    (hu : u.pumpStarted = true) :
    (routerExit t).routerObserving = false ∧
    (routerExit t).routerRunning = false ∧
    (routerExit t).incomingMessageChan = t.incomingMessageChan ∧
    (routerExit t).memoryMsgChan = t.memoryMsgChan ∧
    (routerExit t).backend = t.backend ∧
    (run enc dec steps (routerExit t)).routerRunning = false ∧
    t.incomingMessageChan
      <+: (run enc dec steps (routerExit t)).incomingMessageChan ∧
    (pumpExit u).pumpObserving = false ∧
    (pumpExit u).pumpRunning = false ∧
    (∀ (n : String) (c : Channel), chanLookup u.channelMap n = some c →
      ∃ c2 : Channel,
        chanLookup (run enc dec steps (pumpExit u)).channelMap n = some c2 ∧
        c2.received = c.received) := by
  obtain ⟨g1, g2, -, -⟩ := run_router_dead enc dec steps (routerExit t) rfl
  obtain ⟨-, p2⟩ := run_pump_dead enc dec steps (pumpExit u) rfl hu
  exact ⟨rfl, rfl, rfl, rfl, rfl, g1, g2, rfl, rfl, p2⟩

/-- Witness for C8 on a fresh topic and the subscribed scenario topic, with
a producer event scheduled after shutdown. -/
theorem C8_shutdown_no_drain_witness :
    scenarioSubscribed.pumpStarted = true ∧
    (NewTopic "t" 2 "d" 0).incomingMessageChan
      <+: (run encOk decodeMessage [Step.put msg1]
            (routerExit (NewTopic "t" 2 "d" 0))).incomingMessageChan :=
  ⟨rfl, (C8_shutdown_no_drain encOk decodeMessage [Step.put msg1]
    (NewTopic "t" 2 "d" 0) scenarioSubscribed rfl).2.2.2.2.2.2.1⟩

/-- C10: the Topic keeps no closed state.  After Close, PutMessage still
succeeds and appends to the ingest buffer; but the Router never runs again,
so under any schedule of further events the memory buffer and the backend
queue only shrink — in particular a message submitted after Close is never
placed in either. -/
theorem C10_no_closed_state (enc : Message → Option (List Nat))
    (dec : List Nat → Option Message) (steps : List Step)
    (t : Topic) (m : Message) (hm : m ∉ t.memoryMsgChan) :
    ((t.Close).1.PutMessage m).incomingMessageChan
      = (t.Close).1.incomingMessageChan ++ [m] ∧
    (t.Close).1.routerRunning = false ∧
    (run enc dec steps ((t.Close).1.PutMessage m)).routerRunning = false ∧
    (run enc dec steps ((t.Close).1.PutMessage m)).memoryMsgChan
      <:+ t.memoryMsgChan ∧
    (run enc dec steps ((t.Close).1.PutMessage m)).backend.records
      <:+ (t.Close).1.backend.records ∧
    m ∉ (run enc dec steps ((t.Close).1.PutMessage m)).memoryMsgChan := by
  obtain ⟨g1, -, g3, g4⟩ := run_router_dead enc dec steps
    ((t.Close).1.PutMessage m) rfl
  refine ⟨rfl, rfl, g1, g3, g4, ?_⟩
  intro hmem
  exact hm (g3.subset hmem)

/-- Witness for C10: msg3 is not in the scenario memory buffer; submitted
after Close it still is not, after further router and pump events. -/
theorem C10_no_closed_state_witness :
    msg3 ∉ scenarioSubscribed.memoryMsgChan ∧
    msg3 ∉ (run encOk decodeMessage [Step.router false, Step.pumpMem]
        ((scenarioSubscribed.Close).1.PutMessage msg3)).memoryMsgChan := by
  refine ⟨by decide, ?_⟩
  exact (C10_no_closed_state encOk decodeMessage
    [Step.router false, Step.pumpMem]
    scenarioSubscribed msg3 (by decide)).2.2.2.2.2

/-- C6: steady-state errors are local to the message they occur on.  An
encode failure drops the message — the ingest buffer advances and nothing
else changes, so the message reaches neither destination and the Router
keeps running.  A backend.Put failure likewise drops the message with no
requeue.  A decode failure on a backend record skips exactly that record —
the pump keeps running and no channel receives anything for it. -/
theorem C6_steady_state_errors (enc : Message → Option (List Nat))
    (dec : List Nat → Option Message) (t u v : Topic)
    (m m2 : Message) (rest rest2 : List Message) (d : List Nat)
    (r : List Nat) (rs : List (List Nat))
    (ht : t.routerRunning = true) (hin : t.incomingMessageChan = m :: rest)
    (hfull : ¬ t.memoryMsgChan.length < t.memQueueSize) (henc : enc m = none)
    (hu : u.routerRunning = true) (huin : u.incomingMessageChan = m2 :: rest2)
    (hufull : ¬ u.memoryMsgChan.length < u.memQueueSize)
    (henc2 : enc m2 = some d)
    (hv : v.pumpRunning = true) (hvrec : v.backend.records = r :: rs)
    (hdec : dec r = none) :
    routerStep enc false t = { t with incomingMessageChan := rest } ∧
    routerStep enc true u = { u with incomingMessageChan := rest2 } ∧
    pumpStepDisk dec v
      = { v with backend := { v.backend with records := rs } } := by
  refine ⟨?_, ?_, ?_⟩
  · simp only [routerStep, ht, if_true, hin, if_neg hfull, henc]
  · simp only [routerStep, hu, if_true, huin, if_neg hufull, henc2, if_true]
  · simp only [pumpStepDisk, hv, if_true, hvrec, hdec]

/-- Witness for C6: a capacity-zero topic whose encoder rejects msg1, the
same topic under an injected backend.Put failure, and a pump facing an
undecodable record. -/
theorem C6_steady_state_errors_witness :
    ((NewTopic "t" 0 "d" 0).PutMessage msg1).routerRunning = true ∧
    ¬ ((NewTopic "t" 0 "d" 0).PutMessage msg1).memoryMsgChan.length
        < ((NewTopic "t" 0 "d" 0).PutMessage msg1).memQueueSize ∧
    (fun x => if x = msg1 then none else some (encodeMessage x)) msg1
      = none ∧
    (fun x => if x = msg1 then none else some (encodeMessage x)) msg2
      = some (encodeMessage msg2) ∧
    ({ scenarioSubscribed with backend := { scenarioSubscribed.backend with
        records := [[7]] } } : Topic).pumpRunning = true ∧
    (fun _ : List Nat => (none : Option Message)) [7] = none ∧
    routerStep (fun x => if x = msg1 then none else some (encodeMessage x))
        false ((NewTopic "t" 0 "d" 0).PutMessage msg1)
      = { (NewTopic "t" 0 "d" 0).PutMessage msg1 with
            incomingMessageChan := [] } ∧
    routerStep (fun x => if x = msg1 then none else some (encodeMessage x))
        true ((NewTopic "t" 0 "d" 0).PutMessage msg2)
      = { (NewTopic "t" 0 "d" 0).PutMessage msg2 with
            incomingMessageChan := [] } ∧
    pumpStepDisk (fun _ => none)
        { scenarioSubscribed with backend := { scenarioSubscribed.backend with
            records := [[7]] } }
      = { { scenarioSubscribed with
              backend := { scenarioSubscribed.backend with
                records := [[7]] } } with
          backend := { ({ scenarioSubscribed with
              backend := { scenarioSubscribed.backend with
                records := [[7]] } } : Topic).backend with records := [] } } := by
  have h := C6_steady_state_errors
    (fun x => if x = msg1 then none else some (encodeMessage x))
    (fun _ => none)
    ((NewTopic "t" 0 "d" 0).PutMessage msg1)
    ((NewTopic "t" 0 "d" 0).PutMessage msg2)
    { scenarioSubscribed with backend := { scenarioSubscribed.backend with
        records := [[7]] } }
    msg1 msg2 [] [] (encodeMessage msg2) [7] []
    rfl rfl (by decide) (by decide)
    rfl rfl (by decide) (by decide)
    rfl rfl rfl
  exact ⟨rfl, by decide, by decide, by decide, rfl, rfl, h.1, h.2.1, h.2.2⟩

/-- C9: NewTopic passes its maxBytesPerFile argument to the disk queue only
and leaves the Topic field at its zero value; consequently, in any state
reachable from NewTopic, a GetChannel call constructs (or returns) a
channel whose maxBytesPerFile is 0, not the constructor argument. -/
theorem C9_maxBytesPerFile_not_stored (nm p cn : String) (q : Nat) (mb : Int)
    (enc : Message → Option (List Nat)) (dec : List Nat → Option Message)
    (steps : List Step) :
    (NewTopic nm q p mb).maxBytesPerFile = 0 ∧
    (NewTopic nm q p mb).backend.maxBytesPerFile = mb ∧
    (run enc dec steps (NewTopic nm q p mb)).maxBytesPerFile = 0 ∧
    ((run enc dec steps (NewTopic nm q p mb)).GetChannel cn).1.maxBytesPerFile
      = 0 := by
  have hinv : ∀ (ss : List Step) (t : Topic), mbpfInv t →
      mbpfInv (run enc dec ss t) := by
    intro ss
    induction ss with
    | nil => intro t h; exact h
    | cons s ss ih => intro t h; exact ih _ (mbpfInv_applyStep enc dec s t h)
  have h0 : mbpfInv (NewTopic nm q p mb) := ⟨rfl, by intro x hx; cases hx⟩
  have hr := hinv steps (NewTopic nm q p mb) h0
  refine ⟨rfl, rfl, hr.1, ?_⟩
  unfold Topic.GetChannel
  cases hlk : chanLookup (run enc dec steps (NewTopic nm q p mb)).channelMap
      cn with
  | none =>
    simp only [hlk]
    exact hr.1
  | some c =>
    simp only [hlk]
    exact hr.2 (cn, c) (chanLookup_mem _ cn c hlk)

theorem getD_set_ne {α : Type} : ∀ (l : List α) (i j : Nat) (a d : α),
    i ≠ j → (l.set i a).getD j d = l.getD j d
  | [], _, _, _, _, _ => rfl
  | _ :: _, 0, 0, _, _, hne => absurd rfl hne
  | _ :: _, 0, _ + 1, _, _, _ => rfl
  | _ :: _, _ + 1, 0, _, _, _ => rfl
  | _ :: xs, i + 1, j + 1, a, d, hne =>
    getD_set_ne xs i j a d (fun he => hne (by rw [he]))

theorem getD_append_self (l : List (List Nat)) (a b d : List Nat) :
    (l ++ [a, b]).getD l.length d = a := by
  rw [List.getD_append_right l [a, b] d l.length (le_refl _)]
  simp

theorem getD_append_self1 (l : List (List Nat)) (a b d : List Nat) :
    (l ++ [a, b]).getD (l.length + 1) d = b := by
  rw [List.getD_append_right l [a, b] d (l.length + 1) (by omega)]
  have h1 : l.length + 1 - l.length = 1 := by omega
  rw [h1]
  rfl

theorem heapAfterA_length (h : Heap) (m : MsgRef) :
    (heapAfterA h m).length = h.length + 2 := by
  simp [heapAfterA, copyAlloc]

/-- C7 (copy independence at the byte level): the two per-channel copies
made by the pump carry the same id, body and timestamp as the original,
occupy pairwise distinct heap cells, and mutating a body byte through one
copy changes neither the body the other channel observes nor the
original. -/
theorem C7_copy_isolation (h : Heap) (m : MsgRef) (i v w : Nat)
    (hid : m.idRef < h.length) (hbody : m.bodyRef < h.length) :
    readId (heapAfterB h m) (copyForA h m) = readId h m ∧
    readBody (heapAfterB h m) (copyForA h m) = readBody h m ∧
    (copyForA h m).timestamp = m.timestamp ∧
    readId (heapAfterB h m) (copyForB h m) = readId h m ∧
    readBody (heapAfterB h m) (copyForB h m) = readBody h m ∧
    (copyForB h m).timestamp = m.timestamp ∧
    (copyForA h m).bodyRef ≠ (copyForB h m).bodyRef ∧
    (copyForA h m).idRef ≠ (copyForB h m).idRef ∧
    readBody (writeBodyByte (heapAfterB h m) (copyForA h m) i v)
        (copyForB h m)
      = readBody (heapAfterB h m) (copyForB h m) ∧
    readBody (writeBodyByte (heapAfterB h m) (copyForA h m) i v) m
      = readBody (heapAfterB h m) m ∧
    readBody (writeBodyByte (heapAfterB h m) (copyForB h m) i w)
        (copyForA h m)
      = readBody (heapAfterB h m) (copyForA h m) := by
  have hlA : (heapAfterA h m).length = h.length + 2 := heapAfterA_length h m
  have hidA : readId (heapAfterA h m) m = readId h m := by
    show (h ++ [readId h m, readBody h m]).getD m.idRef [] = _
    exact List.getD_append _ _ _ _ hid
  have hbodyA : readBody (heapAfterA h m) m = readBody h m := by
    show (h ++ [readId h m, readBody h m]).getD m.bodyRef [] = _
    exact List.getD_append _ _ _ _ hbody
  refine ⟨?_, ?_, rfl, ?_, ?_, rfl, ?_, ?_, ?_, ?_, ?_⟩
  · show ((heapAfterA h m) ++ [readId (heapAfterA h m) m,
      readBody (heapAfterA h m) m]).getD h.length [] = _
    rw [List.getD_append _ _ _ _ (by rw [hlA]; omega)]
    exact getD_append_self h _ _ []
  · show ((heapAfterA h m) ++ [readId (heapAfterA h m) m,
      readBody (heapAfterA h m) m]).getD (h.length + 1) [] = _
    rw [List.getD_append _ _ _ _ (by rw [hlA]; omega)]
    exact getD_append_self1 h _ _ []
  · show ((heapAfterA h m) ++ [readId (heapAfterA h m) m,
      readBody (heapAfterA h m) m]).getD (heapAfterA h m).length [] = _
    exact (getD_append_self (heapAfterA h m) _ _ []).trans hidA
  · show ((heapAfterA h m) ++ [readId (heapAfterA h m) m,
      readBody (heapAfterA h m) m]).getD ((heapAfterA h m).length + 1) [] = _
    exact (getD_append_self1 (heapAfterA h m) _ _ []).trans hbodyA
  · show h.length + 1 ≠ (heapAfterA h m).length + 1
    rw [hlA]
    omega
  · show h.length ≠ (heapAfterA h m).length
    rw [hlA]
    omega
  · show ((heapAfterB h m).set (h.length + 1) _).getD
        ((heapAfterA h m).length + 1) [] = _
    exact getD_set_ne _ _ _ _ _ (by rw [hlA]; omega)
  · show ((heapAfterB h m).set (h.length + 1) _).getD m.bodyRef [] = _
    exact getD_set_ne _ _ _ _ _ (by omega)
  · show ((heapAfterB h m).set ((heapAfterA h m).length + 1) _).getD
        (h.length + 1) [] = _
    exact getD_set_ne _ _ _ _ _ (by rw [hlA]; omega)

/-- Witness for C7 on a concrete two-cell heap. -/
theorem C7_copy_isolation_witness :
    (0 : Nat) < ([[1], [2, 3]] : Heap).length ∧
    (1 : Nat) < ([[1], [2, 3]] : Heap).length ∧
    readBody
        (writeBodyByte (heapAfterB [[1], [2, 3]] ⟨0, 1, 7⟩)
          (copyForA [[1], [2, 3]] ⟨0, 1, 7⟩) 0 9)
        (copyForB [[1], [2, 3]] ⟨0, 1, 7⟩)
      = readBody (heapAfterB [[1], [2, 3]] ⟨0, 1, 7⟩)
          (copyForB [[1], [2, 3]] ⟨0, 1, 7⟩) := by
  refine ⟨by decide, by decide, ?_⟩
  exact (C7_copy_isolation [[1], [2, 3]] ⟨0, 1, 7⟩ 0 9 5
    (by decide) (by decide)).2.2.2.2.2.2.2.2.1
